import Mathlib

/-!
Verification of the daily-digest aggregation, selection, scheduling and
delivery pipeline (src/main.py, src/multi_user_main.py, src/summarizer.py)
via a shallow embedding in Lean.  External effects (feed fetches, the
LLM oracle, the Slack webhook, the email transport, the clock) are passed
in explicitly as values or `Except` results; the embedded functions
mirror the Python control flow, including its exception paths.
-/

namespace Digest

/-- A fully normalized candidate article, as built by `fetch_articles` in
src/main.py (keys title, link, summary, published, source). -/
structure Article where
  title : String
  link : String
  summary : String
  published : String
  source : String
deriving DecidableEq, Repr

/-- An article stripped to title and link only, the shape returned by the
selection strategies and fed to delivery. -/
structure StrippedArticle where
  title : String
  link : String
deriving DecidableEq, Repr

/-- Reduce an article to its title and link, as the selection code does. -/
def strip (a : Article) : StrippedArticle := ⟨a.title, a.link⟩

/-- Insertion-ordered bucketing: `by_source.setdefault(src, []).append(a)`
over a Python dict, which preserves first-insertion key order. -/
def addToBuckets (buckets : List (String × List Article)) (src : String)
    (a : Article) : List (String × List Article) :=
  match buckets with
  | [] => [(src, [a])]
  | (s, items) :: rest =>
    if s = src then (s, items ++ [a]) :: rest
    else (s, items) :: addToBuckets rest src a

/-- Bucket articles by their source label, in first-occurrence key order
(the `by_source` dict of `diversify_articles`). -/
def bucketBySource (articles : List Article) : List (String × List Article) :=
  articles.foldl (fun bs a => addToBuckets bs a.source a) []

/-- One pass of the inner `for src in list(by_source.keys())` loop of
`diversify_articles`: pop the head of each nonempty bucket in order,
appending it (stripped) to the selection, breaking as soon as the
selection reaches the limit. Returns the updated buckets and selection. -/
def rrPass (maxA : Nat) (buckets : List (String × List Article))
    (sel : List StrippedArticle) :
    List (String × List Article) × List StrippedArticle :=
  match buckets with
  | [] => ([], sel)
  | (s, bucket) :: rest =>
    match bucket with
    | [] =>
      let r := rrPass maxA rest sel
      ((s, []) :: r.1, r.2)
    | item :: items =>
      let sel2 := sel ++ [strip item]
      if maxA ≤ sel2.length then ((s, items) :: rest, sel2)
      else
        let r := rrPass maxA rest sel2
        ((s, items) :: r.1, r.2)

/-- The outer `while len(selected) < max_articles and any(by_source.values())`
loop of `diversify_articles`, with explicit fuel.  Each pass with a
nonempty bucket consumes at least one article, so a fuel of one more than
the total article count makes the loop always end on its own condition. -/
def rrLoop (maxA : Nat) : Nat → List (String × List Article) →
    List StrippedArticle → List StrippedArticle
  | 0, _, sel => sel
  | fuel + 1, buckets, sel =>
    if sel.length < maxA then
      if buckets.any (fun b => !b.2.isEmpty) then
        let r := rrPass maxA buckets sel
        rrLoop maxA fuel r.1 r.2
      else sel
    else sel

/-- `diversify_articles` (src/main.py lines 31-47): select up to
`max_articles` ensuring diversity across sources by round-robin over
source buckets in stable first-occurrence order. -/
def diversify_articles (articles : List Article) (max_articles : Nat) :
    List StrippedArticle :=
  rrLoop max_articles (articles.length + 1) (bucketBySource articles) []

/-- Scan of `re.findall(r"\d+", raw)` followed by `int(...)`: maximal runs
of decimal digits, each converted to the number it denotes, in order of
appearance.  `acc = some n` holds the value of the digit run currently
being read. -/
def digitRuns : List Char → Option Nat → List Nat
  | [], none => []
  | [], some n => [n]
  | c :: cs, acc =>
    if c.isDigit then
      digitRuns cs (some (acc.getD 0 * 10 + (c.toNat - Char.toNat '0')))
    else
      match acc with
      | none => digitRuns cs none
      | some n => n :: digitRuns cs none

/-- All embedded integers of a string, in order (`re.findall(r"\d+", raw)`
mapped through `int`). -/
def extractNats (s : String) : List Nat :=
  digitRuns s.toList none

/-- ASCII whitespace as Python's `str.strip()` removes it. -/
def isPyWS (c : Char) : Bool :=
  c = ' ' ∨ c = '\t' ∨ c = '\n' ∨ c = '\r' ∨
  c = Char.ofNat 11 ∨ c = Char.ofNat 12

/-- Python's `raw.strip()`: drop leading and trailing whitespace. -/
def pyStrip (s : String) : String :=
  ⟨((s.toList.dropWhile isPyWS).reverse.dropWhile isPyWS).reverse⟩

/-- The index filter of `select_top_articles_with_ai` (src/main.py lines
92-98): for each extracted number `k`, keep `i = k - 1` iff
`0 <= i < n` and `i` was not already kept (`seen`). -/
def dedupIndices (n : Nat) : List Nat → List Nat → List Nat
  | [], _ => []
  | k :: ks, seen =>
    if 1 ≤ k ∧ k ≤ n ∧ (k - 1) ∉ seen then
      (k - 1) :: dedupIndices n ks ((k - 1) :: seen)
    else
      dedupIndices n ks seen

/-- Parsing of the selection oracle's reply against `n` candidates:
`raw.strip()`, extract all embedded integers in order, map one-based to
zero-based, drop out-of-range and duplicate indices. -/
def parseIndices (raw : String) (n : Nat) : List Nat :=
  dedupIndices n (extractNats (pyStrip raw)) []

/-- `select_top_articles_with_ai` (src/main.py lines 49-117).  The oracle
call (prompt construction plus `client.chat.completions.create` plus
reply extraction) is passed in as an `Except`: `.error` is any raised
exception on that path, `.ok content` a reply text.  Every exception is
caught inside the function (inner parse `except` or outer `except`), both
falling back to `diversify_articles`, so the result type is a plain list:
no exception escapes the selector. -/
def select_top_articles_with_ai (articles : List Article) (max_articles : Nat)
    (oracle : Except Unit String) : List StrippedArticle :=
  if articles.length ≤ max_articles then articles.map strip
  else
    match oracle with
    | .error _ => diversify_articles articles max_articles
    | .ok content =>
      let idxs := parseIndices content articles.length
      if idxs.isEmpty then diversify_articles articles max_articles
      else (idxs.take max_articles).map
        (fun i => strip (articles.getD i ⟨"", "", "", "", ""⟩))

/-- `format_articles_with_links` (src/summarizer.py lines 48-65): a header
followed by one numbered block per article — bold numbered title, a
generic summary sentence built from the lowercased title, and the link in
Read-more markup. -/
def format_articles_with_links (articles : List StrippedArticle) : String :=
  let blocks := articles.enum.map (fun p =>
    "**" ++ toString (p.1 + 1) ++ ". " ++ p.2.title ++ "**\n" ++
    "Latest update from the tech world covering " ++ p.2.title.toLower ++ ".\n" ++
    "🔗 [Read more](" ++ p.2.link ++ ")\n")
  String.intercalate "\n" ("📰 **AI & Tech Daily Digest**\n" :: blocks)

/-- Python's `needle in hay` on strings, over character lists: some suffix
of the haystack starts with the needle. -/
def containsSub (hay needle : List Char) : Bool :=
  match hay with
  | [] => needle.isEmpty
  | _ :: t => needle.isPrefixOf hay || containsSub t needle

/-- `summarize_articles` (src/summarizer.py lines 14-46).  The OpenAI call
is passed in as an `Except`: `.error` is a raised exception, `.ok resp`
the reply text.  The function has no try/except of its own, so a raised
exception propagates to the caller (`.error` result); on a successful
reply it returns the stripped text if it carries both link markers, and
otherwise the locally formatted version of the first 12 articles. -/
def summarize_articles (articles : List StrippedArticle)
    (oracle : Except Unit String) : Except Unit String :=
  match oracle with
  | .error e => .error e
  | .ok resp =>
    if containsSub (pyStrip resp).toList "🔗".toList ∧
       containsSub (pyStrip resp).toList "[Read more]".toList
    then .ok (pyStrip resp)
    else .ok (format_articles_with_links (articles.take 12))

/-- A raw feed entry as feedparser hands it over: any of the four fields
may be absent.  Accessing an absent `title`/`link` attribute raises in
the Python code; absent `summary`/`published` are read with defaults. -/
structure RawEntry where
  title : Option String
  link : Option String
  summary : Option String
  published : Option String
deriving DecidableEq, Repr

/-- The result of `feedparser.parse`: the feed-level title (may be absent)
and the entry list. -/
structure ParsedFeed where
  feedTitle : Option String
  entries : List RawEntry
deriving DecidableEq, Repr

/-- One configured feed URL of `RSS_FEEDS` together with its external
fetch outcome: `parsed` is `.error` when `feedparser.parse` raises, and
`netloc` is the outcome of `urlparse(url).netloc` (`.error` when it
raises). -/
structure FeedResult where
  parsed : Except Unit ParsedFeed
  netloc : Except Unit String
deriving Repr

/-- Source-label resolution of `fetch_articles` (src/main.py lines
124-129): the feed's declared title when truthy, else the URL's netloc
(kept even when empty), else the positional fallback label. -/
def resolveSource (i : Nat) (netloc : Except Unit String)
    (feedTitle : Option String) : String :=
  if feedTitle.getD "" ≠ "" then feedTitle.getD ""
  else
    match netloc with
    | .ok h => h
    | .error _ => "Feed " ++ toString (i + 1)

/-- Normalization of one entry, assuming title and link present. -/
def normEntry (src : String) (t l : String) (e : RawEntry) : Article :=
  ⟨t, l, e.summary.getD "", e.published.getD "", src⟩

/-- The entry loop of `fetch_articles` for one feed: entries are
normalized in order; accessing a missing `title` or `link` raises, which
the per-feed `except` catches, so normalization of that feed stops there
and the articles appended so far are kept. -/
def normalizeEntries (src : String) : List RawEntry → List Article
  | [] => []
  | e :: rest =>
    match e.title, e.link with
    | some t, some l => normEntry src t l e :: normalizeEntries src rest
    | _, _ => []

/-- One feed's contribution to the candidate pool: nothing when the fetch
raised, else the normalization of its first 20 entries under its resolved
source label. -/
def perFeed (i : Nat) (fr : FeedResult) : List Article :=
  match fr.parsed with
  | .error _ => []
  | .ok pf => normalizeEntries (resolveSource i fr.netloc pf.feedTitle)
      (pf.entries.take 20)

/-- The `for i, url in enumerate(RSS_FEEDS)` loop of `fetch_articles`,
threading the positional index used by the fallback source label. -/
def poolFrom (i : Nat) : List FeedResult → List Article
  | [] => []
  | fr :: rest => perFeed i fr ++ poolFrom (i + 1) rest

/-- The candidate pool built by `fetch_articles` (src/main.py lines
119-142) before selection. -/
def fetch_articles_pool (feeds : List FeedResult) : List Article :=
  poolFrom 0 feeds

/-- `fetch_articles` (src/main.py lines 119-148) end to end: aggregate the
pool, then run the selector (with its oracle) when the pool is nonempty. -/
def fetch_articles (feeds : List FeedResult) (oracle : Except Unit String) :
    List StrippedArticle :=
  let articles := fetch_articles_pool feeds
  if !articles.isEmpty then select_top_articles_with_ai articles 12 oracle
  else []

/-- A feed descriptor of the multi-user path: a url and a display name
(the dict shape of `get_user_feeds` rows and of the hardcoded default
list). -/
structure FeedDesc where
  url : String
  name : String
deriving DecidableEq, Repr

/-- The six-entry default feed list substituted in
`fetch_articles_for_user` when the user has no configured feeds
(src/multi_user_main.py lines 41-48). -/
def default_feeds : List FeedDesc :=
  [⟨"https://www.langchain.dev/rss.xml", "LangChain Blog"⟩,
   ⟨"https://openai.com/blog/rss.xml", "OpenAI Blog"⟩,
   ⟨"https://pythonweekly.com/rss", "Python Weekly"⟩,
   ⟨"https://huggingface.co/blog/feed.xml", "Hugging Face Blog"⟩,
   ⟨"https://techcrunch.com/feed/", "TechCrunch"⟩,
   ⟨"https://feeds.arstechnica.com/arstechnica/index", "Ars Technica"⟩]

/-- The feed list `fetch_articles_for_user` actually iterates: the user's
configured feeds, or the default list when there are none (`if not
feeds`). -/
def effectiveFeeds (userFeeds : List FeedDesc) : List FeedDesc :=
  if userFeeds.isEmpty then default_feeds else userFeeds

/-- The entry list of a fetch outcome; a raised fetch contributes no
entries. -/
def entriesOf (r : Except Unit (List RawEntry)) : List RawEntry :=
  match r with
  | .ok es => es
  | .error _ => []

/-- Whether a fetch outcome is a success. -/
def isOkB (r : Except Unit (List RawEntry)) : Bool :=
  match r with
  | .ok _ => true
  | .error _ => false

/-- The final list comprehension of `fetch_articles_for_user`:
`[{"title": e.title, "link": e.link} for e in ...]`, where accessing a
missing title or link raises, losing the whole list. -/
def buildDigestList : List RawEntry → Except Unit (List StrippedArticle)
  | [] => .ok []
  | e :: rest =>
    match e.title, e.link with
    | some t, some l =>
      match buildDigestList rest with
      | .ok tail => .ok (⟨t, l⟩ :: tail)
      | .error er => .error er
    | _, _ => .error ()

/-- `fetch_articles_for_user` (src/multi_user_main.py lines 36-60).  The
per-feed fetch is the external `env`; a fetch that raises contributes
nothing (per-feed `except ... continue`).  The final comprehension over
`articles[:12]` runs outside any try, so an entry there lacking title or
link raises out of the whole function (`.error`). -/
def fetch_articles_for_user (userFeeds : List FeedDesc)
    (env : FeedDesc → Except Unit (List RawEntry)) :
    Except Unit (List StrippedArticle) :=
  let collected := (effectiveFeeds userFeeds).foldl (fun acc f =>
    match env f with
    | .error _ => acc
    | .ok es => acc ++ es.take 3) []
  buildDigestList (collected.take 12)

/-- A timezone as the minute offset it adds to a UTC instant; making the
offset a function of the instant covers DST.  Instants are minutes on a
global timeline; `astimezone` is addition of the offset at that instant. -/
structure Timezone where
  offset : Int → Int

/-- The local wall-clock minute count of a UTC instant under a timezone
(`current_utc.astimezone(user_tz)`). -/
def localMinutes (tz : Timezone) (t : Int) : Int := t + tz.offset t

/-- The `.hour` of a wall-clock minute count. -/
def hourOf (m : Int) : Int := (m.ediv 60).emod 24

/-- The `.date()` of a wall-clock minute count (calendar day index). -/
def dateOf (m : Int) : Int := m.ediv 1440

/-- A user row as `get_all_active_users` returns it.  `last_digest_sent`
is `none` when the column is NULL (or falsy); `some none` when it holds a
value that `datetime.fromisoformat` fails to parse; `some (some t)` when
it parses to the UTC instant `t`. -/
structure User where
  id : String
  email : String
  slack_webhook_url : String
  timezone : Timezone
  schedule_hour : Int
  active : Bool
  last_digest_sent : Option (Option Int)

/-- `should_send_digest_today` (src/multi_user_main.py lines 122-142):
true when nothing was ever sent; true when the stored timestamp cannot be
parsed (the `except` returns True); otherwise true iff the stored
instant's calendar date in the user's timezone differs from the current
tick's. -/
def should_send_digest_today (u : User) (now : Int) : Bool :=
  match u.last_digest_sent with
  | none => true
  | some none => true
  | some (some last) =>
    decide (dateOf (localMinutes u.timezone last) ≠
            dateOf (localMinutes u.timezone now))

/-- The per-user eligibility test of `hourly_digest_check`
(src/multi_user_main.py line 107): local hour matches the scheduled hour
and `should_send_digest_today` holds. -/
def userDue (u : User) (now : Int) : Bool :=
  hourOf (localMinutes u.timezone now) == u.schedule_hour &&
    should_send_digest_today u now

/-- `hourly_digest_check` (src/multi_user_main.py lines 96-120) as the
list of users a tick at `now` selects for delivery: the active users
(`get_all_active_users`) that pass `userDue`. -/
def hourly_digest_check (users : List User) (now : Int) : List User :=
  (users.filter (fun u => u.active)).filter (fun u => userDue u now)

/-- The externally visible effects of one `send_digest_to_user` call. -/
structure DigestEffects where
  summarizeCalled : Bool
  slackSent : Bool
  emailAttempted : Bool
  lastUpdated : Bool
deriving DecidableEq, Repr

/-- `send_digest_to_user` (src/multi_user_main.py lines 62-90).  The four
external steps — fetch, summarize, Slack POST, email send — are passed in
as `Except` outcomes (`.error` = that call raises).  The function mirrors
the code's control flow: empty article list returns early; the email send
sits in its own inner try/except so its failure is logged and everything
after it still runs; every other failure is caught only by the outer
per-user try/except, which aborts the remaining steps.  The result is a
plain effects record: no exception passes the per-user boundary. -/
def send_digest_to_user (fetchResult : Except Unit (List StrippedArticle))
    (summarizeResult : Except Unit String) (slackResult : Except Unit Unit)
    (emailResult : Except Unit Unit) : DigestEffects :=
  match fetchResult with
  | .error _ => ⟨false, false, false, false⟩
  | .ok articles =>
    if articles.isEmpty then ⟨false, false, false, false⟩
    else
      match summarizeResult with
      | .error _ => ⟨true, false, false, false⟩
      | .ok _ =>
        match slackResult with
        | .error _ => ⟨true, false, false, false⟩
        | .ok _ =>
          match emailResult with
          | .error _ => ⟨true, true, true, true⟩
          | .ok _ => ⟨true, true, true, true⟩

/-! Concrete inputs used to instantiate the theorems below. -/

/-- A candidate article with the given title and source and a derived
link. -/
def exArticle (t s : String) : Article :=
  ⟨t, "https://example.org/" ++ t, "", "", s⟩

/-- Six candidates whose source labels in input order are A,A,A,B,B,C. -/
def c6Input : List Article :=
  [exArticle "t1" "A", exArticle "t2" "A", exArticle "t3" "A",
   exArticle "t4" "B", exArticle "t5" "B", exArticle "t6" "C"]

/-- Twelve distinct candidates from one source. -/
def c7Input : List Article :=
  (List.range 12).map (fun i => exArticle ("n" ++ toString (i + 1)) "S")

/-- Two candidates from two sources. -/
def c8Input : List Article := [exArticle "x" "A", exArticle "y" "B"]

/-- A well-formed raw entry. -/
def entOk (t l : String) : RawEntry := ⟨some t, some l, none, none⟩

/-- A raw entry with no title. -/
def entNoTitle (l : String) : RawEntry := ⟨none, some l, none, none⟩

/-- A single feed whose second entry lacks a title. -/
def c4Feed : FeedResult :=
  ⟨.ok ⟨some "F", [entOk "t1" "l1", entNoTitle "l2", entOk "t3" "l3"]⟩,
   .ok "example.org"⟩

/-- A user in a fixed UTC-5 timezone, scheduled at local hour 8, never
sent a digest. -/
def c1User : User :=
  ⟨"u1", "a@example.org", "https://hooks.slack.com/services/x",
   ⟨fun _ => -300⟩, 8, true, none⟩

/-- A user in UTC whose stored `last_digest_sent` cannot be parsed. -/
def c9User : User :=
  ⟨"u9", "b@example.org", "https://hooks.slack.com/services/y",
   ⟨fun _ => 0⟩, 13, true, some none⟩

/-- One configured feed descriptor. -/
def c10Feed : FeedDesc := ⟨"https://example.org/rss", "Example"⟩

/-- An environment fetching one well-formed entry for any feed. -/
def c10Env : FeedDesc → Except Unit (List RawEntry) :=
  fun _ => .ok [entOk "t" "l"]

/-! Theorems -/

/-- C5: for every user, if the selected article list is empty, delivery is
a no-op: `send_digest_to_user` returns early before the summarization
call, the Slack POST, the email send and the `last_digest_sent` update,
whatever the outcomes of those channels would have been. -/
theorem C5_empty_selection_noop
    (s : Except Unit String) (sl em : Except Unit Unit) :
    send_digest_to_user (.ok []) s sl em = ⟨false, false, false, false⟩ :=
  rfl

/-- C6: the deterministic diversity fallback on six candidates with
source labels A,A,A,B,B,C and target 4 returns exactly the four articles
t1,t4,t6,t2 — one per source bucket per round in stable first-occurrence
bucket order — whose sources in output order are A,B,C,A. -/
theorem C6_diversity_round_robin :
    diversify_articles c6Input 4 =
      [strip (exArticle "t1" "A"), strip (exArticle "t4" "B"),
       strip (exArticle "t6" "C"), strip (exArticle "t2" "A")] ∧
    [exArticle "t1" "A", exArticle "t4" "B",
     exArticle "t6" "C", exArticle "t2" "A"].map Article.source =
      ["A", "B", "C", "A"] := by
  exact ⟨rfl, rfl⟩

/-- C7: parsing the oracle reply "1,3, 7 and 12" against 12 candidates
recovers the 0-based indices [0, 2, 6, 11], and the oracle-ranked
selector with target 4 accordingly returns the candidates at those
positions. -/
theorem C7_index_parsing :
    parseIndices "1,3, 7 and 12" 12 = [0, 2, 6, 11] ∧
    select_top_articles_with_ai c7Input 4 (.ok "1,3, 7 and 12") =
      [0, 2, 6, 11].map (fun i => strip (c7Input.getD i ⟨"", "", "", "", ""⟩)) := by
  exact ⟨rfl, rfl⟩

/-- C9: a non-null `last_digest_sent` that cannot be parsed makes
`should_send_digest_today` return True (the `except` branch), so such a
user is due again in their scheduled hour. -/
theorem C9_corrupt_timestamp_fails_open (u : User) (now : Int)
    (hcorrupt : u.last_digest_sent = some none)
    (hhour : hourOf (localMinutes u.timezone now) = u.schedule_hour) :
    userDue u now = true := by
  unfold userDue should_send_digest_today
  rw [hcorrupt, hhour]
  simp

/-- Witness for C9 at a concrete user: c9User stores an unparseable
timestamp and is scheduled at hour 13; at the tick 780 (= 13:00 UTC) the
user is due. -/
theorem C9_corrupt_timestamp_fails_open_witness :
    userDue c9User 780 = true :=
  C9_corrupt_timestamp_fails_open c9User 780 rfl (by decide)

/-- C2 counterexample: with a nonempty article list, a successful
summarization and a failing Slack POST, the email send is never
attempted — the outer per-user except catches the Slack failure and
skips the rest — refuting the claim that a Slack failure does not
prevent the email send. -/
theorem C2_slack_failure_blocks_email :
    (send_digest_to_user (.ok [⟨"T", "L"⟩]) (.ok "S")
      (.error ()) (.ok ())).emailAttempted = false :=
  rfl

/-- C2 amended: the email send is attempted after the Slack send and
wrapped in its own try/except, so an email failure changes nothing — it
cannot prevent or undo the Slack send or the `last_digest_sent` update
and is logged, not raised; but a Slack failure aborts that user's
delivery (email not attempted, state not updated), its error caught and
logged at the per-user boundary, never raised past it. -/
theorem C2_amended_channel_independence :
    (∀ (f : Except Unit (List StrippedArticle)) (s : Except Unit String)
       (sl : Except Unit Unit),
       send_digest_to_user f s sl (.error ()) =
         send_digest_to_user f s sl (.ok ())) ∧
    (∀ (a : StrippedArticle) (l : List StrippedArticle) (s : String)
       (em : Except Unit Unit),
       send_digest_to_user (.ok (a :: l)) (.ok s) (.error ()) em =
         ⟨true, false, false, false⟩) := by
  constructor
  · intro f s sl
    cases f with
    | error e => rfl
    | ok articles =>
      cases articles with
      | nil => rfl
      | cons a l =>
        cases s with
        | error e => rfl
        | ok txt =>
          cases sl with
          | error e => rfl
          | ok u => rfl
  · intro a l s em
    cases em with
    | error e => rfl
    | ok u => rfl

/-- C3 counterexample: when the summarization oracle call raises, the
error propagates out of `summarize_articles` — there is no try/except in
the function — instead of the deterministic local formatting being
returned, refuting the claim that the failure is caught at the call
site. -/
theorem C3_oracle_error_escalates :
    summarize_articles [⟨"T", "L"⟩] (.error ()) = .error () ∧
    summarize_articles [⟨"T", "L"⟩] (.error ()) ≠
      .ok (format_articles_with_links (([⟨"T", "L"⟩] : List StrippedArticle).take 12)) :=
  ⟨rfl, fun h => Except.noConfusion h⟩

/-- C3 amended: a raised oracle call propagates to the caller (where the
per-user handler catches it); only a successful reply whose text lacks
the 🔗 marker or the Read-more marker is replaced by the deterministic
local formatting of the first 12 articles. -/
theorem C3_amended_fallback_on_unusable_output :
    (∀ (articles : List StrippedArticle) (e : Unit),
       summarize_articles articles (.error e) = .error e) ∧
    (∀ (articles : List StrippedArticle) (resp : String),
       (containsSub (pyStrip resp).toList "🔗".toList = false ∨
        containsSub (pyStrip resp).toList "[Read more]".toList = false) →
       summarize_articles articles (.ok resp) =
         .ok (format_articles_with_links (articles.take 12))) := by
  constructor
  · intro articles e
    rfl
  · intro articles resp h
    have hnot : ¬ (containsSub (pyStrip resp).toList "🔗".toList = true ∧
        containsSub (pyStrip resp).toList "[Read more]".toList = true) := by
      rintro ⟨h1, h2⟩
      rcases h with h | h
      · rw [h] at h1; cases h1
      · rw [h] at h2; cases h2
    have hred : summarize_articles articles (.ok resp) =
        if containsSub (pyStrip resp).toList "🔗".toList = true ∧
           containsSub (pyStrip resp).toList "[Read more]".toList = true
        then .ok (pyStrip resp)
        else .ok (format_articles_with_links (articles.take 12)) := rfl
    rw [hred, if_neg hnot]

/-- Witness for C3 amended: a reply with no link markers is replaced by
the local formatting. -/
theorem C3_amended_fallback_on_unusable_output_witness :
    summarize_articles [⟨"T", "L"⟩] (.ok "plain text") =
      .ok (format_articles_with_links (([⟨"T", "L"⟩] : List StrippedArticle).take 12)) :=
  C3_amended_fallback_on_unusable_output.2 [⟨"T", "L"⟩] "plain text"
    (Or.inl (by decide))

/-- C8: when the candidate pool exceeds the target and the oracle call
raises, or its reply parses to zero valid indices, the oracle-ranked
selector returns exactly the deterministic diversity fallback on the same
candidates and target (and, being a total function into plain lists, lets
no exception escape). -/
theorem C8_selector_fallback (articles : List Article) (maxA : Nat)
    (oracle : Except Unit String) (hgt : maxA < articles.length)
    (hfail : oracle = .error () ∨
      ∃ raw, oracle = .ok raw ∧ parseIndices raw articles.length = []) :
    select_top_articles_with_ai articles maxA oracle =
      diversify_articles articles maxA := by
  unfold select_top_articles_with_ai
  rw [if_neg (by omega)]
  rcases hfail with h | ⟨raw, hor, hp⟩
  · rw [h]
  · rw [hor]
    simp [hp]

/-- Witness for C8 at a concrete input: two candidates, target one, a
raising oracle. -/
theorem C8_selector_fallback_witness :
    select_top_articles_with_ai c8Input 1 (.error ()) =
      diversify_articles c8Input 1 :=
  C8_selector_fallback c8Input 1 (.error ()) (by decide) (Or.inl rfl)

/-- C4 counterexample: in a feed whose entries are t1, an entry with no
title, then t3, only t1 reaches the candidate pool — the missing-title
exception is caught per feed, not per entry, so t3 is lost, refuting the
claim that the entries after the bad one are still normalized. -/
theorem C4_missing_title_aborts_feed :
    fetch_articles_pool [c4Feed] = [normEntry "F" "t1" "l1" (entOk "t1" "l1")] ∧
    normEntry "F" "t3" "l3" (entOk "t3" "l3") ∉ fetch_articles_pool [c4Feed] := by
  exact ⟨rfl, by decide⟩

/-- Normalization stops at the first entry missing a title or link: the
entries before it are normalized, the rest of the feed is dropped. -/
theorem normalizeEntries_stops_at_bad (src : String) (bad : RawEntry)
    (post : List RawEntry) (hbad : bad.title = none ∨ bad.link = none) :
    ∀ pre : List RawEntry, (∀ e ∈ pre, e.title.isSome ∧ e.link.isSome) →
    normalizeEntries src (pre ++ bad :: post) = normalizeEntries src pre := by
  intro pre
  induction pre with
  | nil =>
    intro _
    rcases hbad with hb | hb <;> simp [normalizeEntries, hb]
  | cons e rest ih =>
    intro hpre
    obtain ⟨ht, hl⟩ := hpre e (List.mem_cons_self e rest)
    obtain ⟨t, ht'⟩ := Option.isSome_iff_exists.mp ht
    obtain ⟨l, hl'⟩ := Option.isSome_iff_exists.mp hl
    simp only [List.cons_append, normalizeEntries, ht', hl']
    exact congrArg (fun ys => normEntry src t l e :: ys)
      (ih (fun x hx => hpre x (List.mem_cons_of_mem e hx)))

/-- Well-formed entries are all normalized: none is skipped. -/
theorem normalizeEntries_full_length (src : String) :
    ∀ pre : List RawEntry, (∀ e ∈ pre, e.title.isSome ∧ e.link.isSome) →
    (normalizeEntries src pre).length = pre.length := by
  intro pre
  induction pre with
  | nil => intro _; rfl
  | cons e rest ih =>
    intro hpre
    obtain ⟨ht, hl⟩ := hpre e (List.mem_cons_self e rest)
    obtain ⟨t, ht'⟩ := Option.isSome_iff_exists.mp ht
    obtain ⟨l, hl'⟩ := Option.isSome_iff_exists.mp hl
    simp only [normalizeEntries, ht', hl', List.length_cons]
    rw [ih (fun x hx => hpre x (List.mem_cons_of_mem e hx))]

/-- C4 amended: within one feed of at most 20 entries, an entry lacking a
title or link aborts normalization of the remaining entries of that same
feed; the well-formed entries before it are all normalized into the pool
(none skipped) and the remaining feeds are aggregated unaffected. -/
theorem C4_amended_bad_entry_truncates_feed (ft : Option String)
    (nl : Except Unit String) (pre post : List RawEntry) (bad : RawEntry)
    (rest : List FeedResult)
    (hlen : pre.length + 1 + post.length ≤ 20)
    (hpre : ∀ e ∈ pre, e.title.isSome ∧ e.link.isSome)
    (hbad : bad.title = none ∨ bad.link = none) :
    fetch_articles_pool (⟨.ok ⟨ft, pre ++ bad :: post⟩, nl⟩ :: rest) =
      normalizeEntries (resolveSource 0 nl ft) pre ++ poolFrom 1 rest ∧
    (normalizeEntries (resolveSource 0 nl ft) pre).length = pre.length := by
  constructor
  · have h1 : fetch_articles_pool (⟨.ok ⟨ft, pre ++ bad :: post⟩, nl⟩ :: rest) =
        normalizeEntries (resolveSource 0 nl ft)
          ((pre ++ bad :: post).take 20) ++ poolFrom 1 rest := rfl
    rw [h1, List.take_of_length_le (by simp; omega),
      normalizeEntries_stops_at_bad _ bad post hbad pre hpre]
  · exact normalizeEntries_full_length _ pre hpre

/-- Witness for C4 amended at the concrete three-entry feed of the
counterexample. -/
theorem C4_amended_bad_entry_truncates_feed_witness :
    fetch_articles_pool
        [⟨.ok ⟨some "F", [entOk "t1" "l1"] ++ entNoTitle "l2" :: [entOk "t3" "l3"]⟩,
          .ok "example.org"⟩] =
      normalizeEntries (resolveSource 0 (.ok "example.org") (some "F"))
        [entOk "t1" "l1"] ++ poolFrom 1 [] ∧
    (normalizeEntries (resolveSource 0 (.ok "example.org") (some "F"))
        [entOk "t1" "l1"]).length = [entOk "t1" "l1"].length :=
  C4_amended_bad_entry_truncates_feed (some "F") (.ok "example.org")
    [entOk "t1" "l1"] [entOk "t3" "l3"] (entNoTitle "l2") []
    (by decide) (by decide) (Or.inl rfl)

/-- C1: an active user is selected by the hourly check at a tick iff the
tick's hour in the user's timezone equals the scheduled hour, and the
user was never sent a digest or the stored send instant falls on a
different calendar date in the user's timezone than the tick
(`hparse` restricts to stored timestamps that are absent or parseable;
the unparseable case is claim C9). -/
theorem C1_due_selection (users : List User) (u : User) (now : Int)
    (hmem : u ∈ users) (hact : u.active = true)
    (hparse : u.last_digest_sent ≠ some none) :
    u ∈ hourly_digest_check users now ↔
      (hourOf (localMinutes u.timezone now) = u.schedule_hour ∧
       (u.last_digest_sent = none ∨
        ∃ last, u.last_digest_sent = some (some last) ∧
          dateOf (localMinutes u.timezone last) ≠
            dateOf (localMinutes u.timezone now))) := by
  unfold hourly_digest_check
  rw [List.mem_filter, List.mem_filter]
  simp only [hmem, hact, true_and, and_true]
  unfold userDue should_send_digest_today
  cases hl : u.last_digest_sent with
  | none =>
    simp [Bool.and_eq_true, beq_iff_eq]
  | some lastOpt =>
    cases lastOpt with
    | none => exact absurd hl hparse
    | some last =>
      simp [Bool.and_eq_true, beq_iff_eq, decide_eq_true_eq]

/-- Witness for C1: a user in fixed UTC-5 scheduled at local hour 8 with
no previous digest is selected at the tick 780 (13:00 UTC, 08:00
local). -/
theorem C1_due_selection_witness :
    c1User ∈ hourly_digest_check [c1User] 780 :=
  (C1_due_selection [c1User] c1User 780 (List.mem_singleton.mpr rfl) rfl
    (by decide)).mpr ⟨by decide, Or.inl rfl⟩

/-- The collection fold of `fetch_articles_for_user` concatenates, in feed
order, each feed's first three fetched entries. -/
theorem foldl_collect (env : FeedDesc → Except Unit (List RawEntry)) :
    ∀ (feeds : List FeedDesc) (acc : List RawEntry),
    feeds.foldl (fun acc f =>
      match env f with
      | .error _ => acc
      | .ok es => acc ++ es.take 3) acc =
    acc ++ (feeds.map (fun f => (entriesOf (env f)).take 3)).flatten := by
  intro feeds
  induction feeds with
  | nil => intro acc; simp
  | cons f fs ih =>
    intro acc
    simp only [List.foldl_cons, List.map_cons, List.flatten]
    cases henv : env f with
    | error e => rw [ih]; simp [entriesOf]
    | ok es => rw [ih]; simp [entriesOf, List.append_assoc]

/-- The final comprehension succeeds on well-formed entries and maps each
to its title and link. -/
theorem buildDigestList_ok :
    ∀ l : List RawEntry, (∀ e ∈ l, e.title.isSome ∧ e.link.isSome) →
    buildDigestList l =
      .ok (l.map (fun e =>
        (⟨e.title.getD "", e.link.getD ""⟩ : StrippedArticle))) := by
  intro l
  induction l with
  | nil => intro _; rfl
  | cons e rest ih =>
    intro hwf
    obtain ⟨ht, hl⟩ := hwf e (List.mem_cons_self e rest)
    obtain ⟨t, ht'⟩ := Option.isSome_iff_exists.mp ht
    obtain ⟨l2, hl'⟩ := Option.isSome_iff_exists.mp hl
    simp only [buildDigestList, ht', hl', List.map_cons,
      ih (fun x hx => hwf x (List.mem_cons_of_mem e hx)), Option.getD_some]

/-- A successful comprehension keeps the input length. -/
theorem buildDigestList_length :
    ∀ (l : List RawEntry) (res : List StrippedArticle),
    buildDigestList l = .ok res → res.length = l.length := by
  intro l
  induction l with
  | nil =>
    intro res h
    cases h
    rfl
  | cons e rest ih =>
    intro res h
    cases ht : e.title with
    | none => rw [buildDigestList, ht] at h; cases h
    | some t =>
      cases hl : e.link with
      | none => rw [buildDigestList, ht, hl] at h; cases h
      | some l2 =>
        rw [buildDigestList, ht, hl] at h
        cases hrest : buildDigestList rest with
        | error er => rw [hrest] at h; cases h
        | ok tail =>
          rw [hrest] at h
          cases h
          simp [ih tail hrest]

/-- C10: on the multi-user fetch path, when every effective feed
(configured, or the six defaults when the user has none) fetches
successfully and the retained entries are well-formed, the result is
exactly the first 12 elements of the concatenation, in feed order, of
each feed's first 3 entries, each reduced to title and link — so it is a
plain order-preserving truncation, never more than 12 articles, with
neither the oracle-ranked selector nor the diversity fallback involved. -/
theorem C10_multi_user_truncation (userFeeds : List FeedDesc)
    (env : FeedDesc → Except Unit (List RawEntry))
    (hok : ∀ f ∈ effectiveFeeds userFeeds, isOkB (env f) = true)
    (hwf : ∀ e ∈ (((effectiveFeeds userFeeds).map
        (fun f => (entriesOf (env f)).take 3)).flatten).take 12,
        e.title.isSome ∧ e.link.isSome) :
    fetch_articles_for_user userFeeds env =
      .ok (((((effectiveFeeds userFeeds).map
        (fun f => (entriesOf (env f)).take 3)).flatten).take 12).map
        (fun e => (⟨e.title.getD "", e.link.getD ""⟩ : StrippedArticle))) ∧
    ∀ l, fetch_articles_for_user userFeeds env = .ok l → l.length ≤ 12 := by
  have hcollect : fetch_articles_for_user userFeeds env =
      buildDigestList ((((effectiveFeeds userFeeds).map
        (fun f => (entriesOf (env f)).take 3)).flatten).take 12) := by
    unfold fetch_articles_for_user
    rw [foldl_collect env (effectiveFeeds userFeeds) []]
    rfl
  constructor
  · rw [hcollect]
    exact buildDigestList_ok _ hwf
  · intro l hl
    rw [hcollect] at hl
    have := buildDigestList_length _ l hl
    rw [this, List.length_take]
    omega

/-- Witness for C10: one configured feed fetching one well-formed entry
yields that entry's title and link. -/
theorem C10_multi_user_truncation_witness :
    fetch_articles_for_user [c10Feed] c10Env =
      .ok (((((effectiveFeeds [c10Feed]).map
        (fun f => (entriesOf (c10Env f)).take 3)).flatten).take 12).map
        (fun e => (⟨e.title.getD "", e.link.getD ""⟩ : StrippedArticle))) ∧
    ∀ l, fetch_articles_for_user [c10Feed] c10Env = .ok l → l.length ≤ 12 :=
  C10_multi_user_truncation [c10Feed] c10Env (by decide) (by decide)

end Digest
